import Mathlib

/-!
Verification of the hidalgo build orchestration pipeline (hidalgo.go).

The development shallowly embeds the configuration validator, the
Dockerfile (manifest) renderer, the streaming packager protocol and the
orchestrator exit behaviour of hidalgo.go, and proves or refutes the
frozen specification claims about them.
-/

namespace Hidalgo

/-- One parsed configuration statement.  A denada declaration such as
`port 8080;` has qualifier `port` and name `8080`; `env FOO;` has
qualifier `env` and name `FOO`.  This mirrors the fields of a denada
Element that hidalgo.go consumes (`e.Name` plus the qualifier that the
grammar rule matched on). -/
structure Element where
  qualifier : String
  name : String
deriving DecidableEq, Repr

/-- Mirrors the Config structure of hidalgo.go (lines 75-79): the
information extracted from the configuration file. -/
structure Config where
  Files : List String
  Env : List String
  Ports : List Int
deriving DecidableEq, Repr

/-- Mirrors denada ElementList.OfRule for the flat hidalgo grammar: after
a successful denada.Check against configGrammar, an element is annotated
with the rule named after its qualifier, so OfRule selects the elements
with that qualifier. -/
def ofRule (rule : String) (config : List Element) : List Element :=
  config.filter (fun e => e.qualifier == rule)

/-- Go strconv lower(c): maps an upper-case ASCII letter to lower case
(the byte operation c OR 0x20, restricted to the comparisons the parser
performs, which only involve ASCII letters). -/
def goLower (c : Char) : Char :=
  if 'A' ≤ c ∧ c ≤ 'Z' then Char.ofNat (c.toNat + 32) else c

/-- Digit decoding of the Go strconv.ParseUint loop: ASCII digits, then
letters as digits 10..35; anything else is a syntax error. -/
def digitValue (c : Char) : Option Nat :=
  if '0' ≤ c ∧ c ≤ '9' then some (c.toNat - '0'.toNat)
  else if 'a' ≤ c ∧ c ≤ 'z' then some (c.toNat - 'a'.toNat + 10)
  else if 'A' ≤ c ∧ c ≤ 'Z' then some (c.toNat - 'A'.toNat + 10)
  else none

/-- Base detection of Go strconv.ParseUint with base argument 0: a
0b/0o/0x prefix (followed by at least one further character) selects
base 2/8/16, a remaining leading zero selects base 8 (octal), otherwise
base 10. -/
def baseAndDigits : List Char → Nat × List Char
  | '0' :: c :: r =>
    if goLower c = 'b' ∧ r ≠ [] then (2, r)
    else if goLower c = 'o' ∧ r ≠ [] then (8, r)
    else if goLower c = 'x' ∧ r ≠ [] then (16, r)
    else (8, c :: r)
  | '0' :: [] => (8, [])
  | cs => (10, cs)

/-- The digit-accumulation loop of Go strconv.ParseUint with base
argument 0: underscores are skipped here (their placement is checked
separately), a digit at or above the base is a syntax error.  The Bool
records whether an underscore was seen.  Overflow is not cut off here;
the range check happens in goParseInt0 (every overflowing input is
rejected either way, which is all hidalgo observes from the error). -/
def goDigitsAux (base : Nat) : List Char → Nat → Bool → Option (Nat × Bool)
  | [], acc, u => some (acc, u)
  | c :: r, acc, u =>
    if c = '_' then goDigitsAux base r acc true
    else
      match digitValue c with
      | none => none
      | some d => if d < base then goDigitsAux base r (acc * base + d) u else none

/-- Core loop of Go strconv underscoreOK: `saw` is the class of the
previous character (caret for start, 0 for digit or base prefix,
underscore, or exclamation mark for anything else); an underscore must
be both preceded and followed by a digit. -/
def underscoreOKAux (hex : Bool) : List Char → Char → Bool
  | [], saw => saw ≠ '_'
  | c :: r, saw =>
    if ('0' ≤ c ∧ c ≤ '9') ∨ (hex ∧ 'a' ≤ goLower c ∧ goLower c ≤ 'f') then
      underscoreOKAux hex r '0'
    else if c = '_' then
      (if saw = '0' then underscoreOKAux hex r '_' else false)
    else if saw = '_' then false
    else underscoreOKAux hex r '!'

/-- Go strconv underscoreOK on the original rune sequence: skip an
optional sign, treat a 0b/0o/0x prefix as a digit, then run the core
loop. -/
def underscoreOK (cs : List Char) : Bool :=
  let cs1 := match cs with
    | c :: r => if c = '-' ∨ c = '+' then r else cs
    | [] => cs
  match cs1 with
  | '0' :: c :: r =>
    if goLower c = 'b' ∨ goLower c = 'o' ∨ goLower c = 'x' then
      underscoreOKAux (goLower c = 'x') r '0'
    else underscoreOKAux false cs1 '^'
  | _ => underscoreOKAux false cs1 '^'

/-- Go strconv.ParseUint(string(cs), 0, 64) up to (but excluding) the
range check, which goParseInt0 performs; `orig` is the full original
rune sequence, consulted by the underscore placement check.  Returns
none exactly when Go reports a syntax error. -/
def goParseUint0 (cs : List Char) (orig : List Char) : Option Nat :=
  match cs with
  | [] => none
  | _ =>
    let bd := baseAndDigits cs
    match goDigitsAux bd.1 bd.2 0 false with
    | none => none
    | some (n, u) => if u ∧ underscoreOK orig = false then none else some n

/-- Go strconv.ParseInt(s, 0, 0) on a 64-bit platform (bitSize 0 means
the platform int, 64 bit here): optional sign, base detection from the
prefix, digit loop, and the signed range check.  All error returns of
the Go function are collapsed to none, since hidalgo.go only branches on
err being non-nil. -/
def goParseInt0 (s : String) : Option Int :=
  match s.data with
  | [] => none
  | c :: r =>
    let digits := if c = '-' ∨ c = '+' then r else c :: r
    match goParseUint0 digits s.data with
    | none => none
    | some n =>
      if c = '-' then (if n > 2 ^ 63 then none else some (-(n : Int)))
      else (if n ≥ 2 ^ 63 then none else some (n : Int))

/-- Full match of the regular expression [0-9]+ from configGrammar
(hidalgo.go line 27): a nonempty string of ASCII digits. -/
def matchesDigits (s : String) : Bool :=
  !s.data.isEmpty && s.data.all (fun c => c.isDigit)

/-- One step of denada.Check against configGrammar (hidalgo.go lines
22-28), modelled from the grammar text and the documented behaviour of
the denada library: an element matches the env or file rule whenever its
qualifier matches (the name pattern is the wildcard), matches the port
rule when its name fully matches [0-9]+, and any other element matches
no rule, which makes the check fail. -/
def checkElement (e : Element) : Bool :=
  match e.qualifier with
  | "env" => true
  | "file" => true
  | "port" => matchesDigits e.name
  | _ => false

/-- denada.Check(conf, grammar, false) for the hidalgo grammar: every
element of the configuration must match one of the three rules. -/
def checkConfig (config : List Element) : Bool :=
  config.all checkElement

/-- The port loop of parseConfig (hidalgo.go lines 102-108): each port
element name is parsed with strconv.ParseInt(name, 0, 0); a parse error
or a value outside [1, 65535] stops the walk and returns the
configuration collected so far together with the error message. -/
def portLoop (ret : Config) : List Element → Config × Option String
  | [] => (ret, none)
  | e :: rest =>
    match goParseInt0 e.name with
    | none => (ret, some ("Invalid port number: " ++ e.name))
    | some num =>
      if num < 1 ∨ num > 65535 then (ret, some ("Invalid port number: " ++ e.name))
      else portLoop { ret with Ports := ret.Ports ++ [num] } rest

/-- parseConfig (hidalgo.go lines 89-118): collect env names, then port
numbers (aborting the walk on an invalid port, like the Go early
return), then file names.  The Go function returns the partially filled
Config together with the error, and so does this model. -/
def parseConfig (config : List Element) : Config × Option String :=
  let ret : Config := ⟨[], [], []⟩
  let ret := { ret with Env := (ofRule "env" config).map Element.name }
  match portLoop ret (ofRule "port" config) with
  | (ret, some msg) => (ret, some msg)
  | (ret, none) =>
    ({ ret with Files := (ofRule "file" config).map Element.name }, none)

/-- Bytewise comparison of two key strings as rune sequences, as Go sorts
map keys of string type (UTF-8 byte order coincides with code point
order). -/
def charsLe : List Char → List Char → Bool
  | [], _ => true
  | _ :: _, [] => false
  | a :: as, b :: bs => if a < b then true else if b < a then false else charsLe as bs

/-- Order on environment map entries by key, the order in which the Go
text/template range action visits a map[string]string. -/
def keyLE (a b : String × String) : Prop := charsLe a.1.data b.1.data = true

instance : DecidableRel keyLE :=
  fun a b => inferInstanceAs (Decidable (charsLe a.1.data b.1.data = true))

/-- Strict version of keyLE: the keys also differ. -/
def keyLT (a b : String × String) : Prop := keyLE a b ∧ a.1 ≠ b.1

/-- Distinctness of the keys of two map entries. -/
def keyNe (a b : String × String) : Prop := a.1 ≠ b.1

/-- Assignment env[k] = v on the environment map, represented as an
association list with distinct keys: replace the entry for k if present,
otherwise append a new entry. -/
def envInsert (k v : String) : List (String × String) → List (String × String)
  | [] => [(k, v)]
  | q :: rest => if q.1 = k then (k, v) :: rest else q :: envInsert k v rest

/-- addIf (hidalgo.go lines 166-172): if the named variable has a
non-empty value in the process environment, record it in the map and
report true, otherwise leave the map alone and report false.  The host
environment os.Getenv is passed explicitly as a total function that
returns the empty string for unset names, exactly the Go semantics. -/
def addIf (name : String) (getenv : String → String)
    (env : List (String × String)) : List (String × String) × Bool :=
  if getenv name ≠ "" then (envInsert name (getenv name) env, true) else (env, false)

/-- The env loop of main (hidalgo.go lines 325-337): start from the
empty map and run addIf on every declared env name in order. -/
def buildEnv (names : List String) (getenv : String → String) :
    List (String × String) :=
  names.foldl (fun env e => (addIf e getenv env).1) []

/-- Iteration order of the Go text/template range action over a
map[string]string: the entries sorted by key. -/
def sortedEntries (env : List (String × String)) : List (String × String) :=
  List.insertionSort keyLE env

/-- The output of the env range block of dockerTemplate (hidalgo.go
lines 42-44): for each map entry, in template iteration order, the text
between the range and end actions with both variables substituted. -/
def envSection (env : List (String × String)) : String :=
  String.join ((sortedEntries env).map (fun p => "\nENV " ++ p.1 ++ " " ++ p.2 ++ "\n"))

/-- The output of the ports range block of dockerTemplate (hidalgo.go
lines 47-49). -/
def portsSection (ports : List Int) : String :=
  String.join (ports.map (fun v => "\nEXPOSE " ++ toString v ++ "\n"))

/-- The Dockerfile text produced by executing dockerTemplate (hidalgo.go
lines 31-53) on the context built in main (lines 323-348): the template
text with .from substituted, the env range block expanded over the map
built by addIf from Config.Env, and the ports range block expanded over
Config.Ports. -/
def renderManifest (config : Config) (getenv : String → String)
    (fromImage : String) : String :=
  "\n# Start from a Debian image with the latest version of Go installed\n# and a workspace (GOPATH) configured at /go.\nFROM "
    ++ fromImage
    ++ "\n\n# Copy local executable to image\nADD server_linux64 /usr/local/bin/server_linux64\n\n# Environment variable values available at *build* time\n# (if you don\x27t see variables you expect, either define them\n# when running hidalgo OR specify them when running the image)\n"
    ++ envSection (buildEnv config.Env getenv)
    ++ "\n\n# Expose any ports required\n"
    ++ portsSection config.Ports
    ++ "\n\n# Run the executable\nCMD [\"/usr/local/bin/server_linux64\"]\n"

/-- The failure report of the packaging stage. -/
inductive ReportedFailure
  | archiverFailed (msg : String)
  | builderFailed (msg : String)
deriving DecidableEq, Repr

/-- Result combination of the streaming packager (hidalgo.go lines
434-441): the archiver (tar) wait error is examined first and, when
present, is the reported failure (the process exits there, so a builder
error is never reported in that case); only otherwise is the builder
(docker build) wait error examined and reported.  The Go code logs the
builder branch with the message Error performing build, referencing the
builder. -/
def combineResults (terr serr : Option String) : Option ReportedFailure :=
  match terr with
  | some m => some (ReportedFailure.archiverFailed m)
  | none =>
    match serr with
    | some m => some (ReportedFailure.builderFailed m)
    | none => none

/-- The observable steps of a pipeline run, in order: stages that start,
plus the pipe protocol events of the packaging stage. -/
inductive Stage
  | resolve
  | grammarParse
  | readConfigFile
  | checkConfigStage
  | parseConfigStage
  | workspace
  | compile
  | renderManifestStage
  | startArchiver
  | startBuilder
  | waitArchiver
  | closeWrite
  | waitBuilder
deriving DecidableEq, Repr

/-- How a run of main terminates: an explicit os.Exit with a status
code, or a normal return from main (process status 0). -/
inductive Outcome
  | exited (code : Nat)
  | success
deriving DecidableEq, Repr

/-- The inputs and external outcomes that determine the control flow of
main: whether flag parsing, package resolution, the workspace steps, the
compile, the template steps and the two packager processes succeed,
whether a configuration file is present and what it parses to (some none
models a file that exists but fails to parse), and the relevant option
values. -/
structure RunInput where
  usageOk : Bool
  resolveOk : Bool
  cfgFile : Option (Option (List Element))
  workspaceOk : Bool
  chdirOk : Bool
  compileOk : Bool
  templateParseOk : Bool
  createFileOk : Bool
  renderExecOk : Bool
  dockerCmd : String
  fromOpt : String
  dry : Bool
  getenv : String → String
  archiverOk : Bool
  builderOk : Bool

/-- The parsed configuration elements of a run: empty when no
configuration file is present (hidalgo.go line 215). -/
def elemsOf : Option (Option (List Element)) → List Element
  | some (some es) => es
  | _ => []

/-- The control flow of main (hidalgo.go lines 175-448) as a function
from the run inputs to the executed stages and the termination outcome,
with the exit codes of the source: flag parse error 1 (line 181),
package resolution error 1 (line 196), configuration file read error 1
(line 223), grammar check error 2 (line 235), workspace errors 2 (lines
254, 264, 276), compile error 3 (line 293), template parse and
Dockerfile creation errors 4 (lines 312, 319), template execution error
5 (line 357), empty docker command 5 (line 374), archiver error 3 (line
436), builder error 3 (line 440).  A parseConfig error (line 240-243)
is only logged: the run continues with the partially filled Config and
no exit happens there. -/
def mainModel (i : RunInput) : List Stage × Outcome :=
  if i.usageOk = false then ([], Outcome.exited 1) else
  if i.resolveOk = false then ([Stage.resolve], Outcome.exited 1) else
  if i.cfgFile = some none then
    ([Stage.resolve, Stage.grammarParse, Stage.readConfigFile], Outcome.exited 1) else
  if checkConfig (elemsOf i.cfgFile) = false then
    ([Stage.resolve, Stage.grammarParse, Stage.readConfigFile, Stage.checkConfigStage],
      Outcome.exited 2) else
  let tr0 := [Stage.resolve, Stage.grammarParse, Stage.readConfigFile,
    Stage.checkConfigStage, Stage.parseConfigStage]
  if i.workspaceOk = false then (tr0, Outcome.exited 2) else
  if i.chdirOk = false then (tr0 ++ [Stage.workspace], Outcome.exited 2) else
  if i.compileOk = false then (tr0 ++ [Stage.workspace, Stage.compile], Outcome.exited 3) else
  if i.templateParseOk = false then (tr0 ++ [Stage.workspace, Stage.compile], Outcome.exited 4) else
  if i.createFileOk = false then (tr0 ++ [Stage.workspace, Stage.compile], Outcome.exited 4) else
  if i.renderExecOk = false then
    (tr0 ++ [Stage.workspace, Stage.compile, Stage.renderManifestStage], Outcome.exited 5) else
  let tr1 := tr0 ++ [Stage.workspace, Stage.compile, Stage.renderManifestStage]
  if i.dockerCmd = "" then (tr1, Outcome.exited 5) else
  if i.dry = true then (tr1, Outcome.success) else
  let tr2 := tr1 ++ [Stage.startArchiver, Stage.startBuilder, Stage.waitArchiver,
    Stage.closeWrite, Stage.waitBuilder]
  if i.archiverOk = false then (tr2, Outcome.exited 3) else
  if i.builderOk = false then (tr2, Outcome.exited 3) else
  (tr2, Outcome.success)

/-- Plain decimal reading of a digit sequence. -/
def decimalNat (cs : List Char) : Nat :=
  cs.foldl (fun acc c => acc * 10 + (c.toNat - 48)) 0

/-- Acceptance of a port value as claim C7 words it: the value parses as
an integer (plain decimal reading of a numeral) lying in [1, 65535];
non-numeric text does not parse.  This is the claim-side refinement
definition, to be compared with the acceptance computed from the
source. -/
def claimPortAccepted (s : String) : Bool :=
  matchesDigits s && decide (1 ≤ decimalNat s.data ∧ decimalNat s.data ≤ 65535)

/-- Acceptance of a port directive by the configuration validator of the
source: the directive must pass the denada grammar check and then the
parseConfig port walk without an error. -/
def portDirectiveAccepted (s : String) : Bool :=
  checkConfig [⟨"port", s⟩] && (parseConfig [⟨"port", s⟩]).2.isNone

/-- The environment pairs in the order claim C3 states them: one entry
per env directive in declaration order, restricted to names whose host
value is non-empty.  This is the claim-side refinement definition. -/
def declaredOrderEnvPairs (c : Config) (getenv : String → String) :
    List (String × String) :=
  (c.Env.filter (fun n => getenv n != "")).map (fun n => (n, getenv n))

/-- The manifest text as claim C3 describes it: identical to
renderManifest except that the environment lines appear in declaration
order. -/
def renderManifestClaimOrder (config : Config) (getenv : String → String)
    (fromImage : String) : String :=
  "\n# Start from a Debian image with the latest version of Go installed\n# and a workspace (GOPATH) configured at /go.\nFROM "
    ++ fromImage
    ++ "\n\n# Copy local executable to image\nADD server_linux64 /usr/local/bin/server_linux64\n\n# Environment variable values available at *build* time\n# (if you don\x27t see variables you expect, either define them\n# when running hidalgo OR specify them when running the image)\n"
    ++ String.join ((declaredOrderEnvPairs config getenv).map
        (fun p => "\nENV " ++ p.1 ++ " " ++ p.2 ++ "\n"))
    ++ "\n\n# Expose any ports required\n"
    ++ portsSection config.Ports
    ++ "\n\n# Run the executable\nCMD [\"/usr/local/bin/server_linux64\"]\n"

/-! ### Helper lemmas about the key order -/

theorem charsLe_cons_iff {a b : Char} {as bs : List Char} :
    charsLe (a :: as) (b :: bs) = true ↔ a < b ∨ (a = b ∧ charsLe as bs = true) := by
  show (if a < b then true else if b < a then false else charsLe as bs) = true ↔ _
  rcases lt_trichotomy a b with h | h | h
  · simp [h]
  · subst h
    simp [lt_irrefl]
  · simp [lt_asymm h, h, (ne_of_gt h : a ≠ b)]

theorem charsLe_total : ∀ (as bs : List Char),
    charsLe as bs = true ∨ charsLe bs as = true
  | [], _ => Or.inl rfl
  | _ :: _, [] => Or.inr rfl
  | a :: as, b :: bs => by
    rcases lt_trichotomy a b with h | h | h
    · exact Or.inl (charsLe_cons_iff.mpr (Or.inl h))
    · subst h
      rcases charsLe_total as bs with hr | hr
      · exact Or.inl (charsLe_cons_iff.mpr (Or.inr ⟨rfl, hr⟩))
      · exact Or.inr (charsLe_cons_iff.mpr (Or.inr ⟨rfl, hr⟩))
    · exact Or.inr (charsLe_cons_iff.mpr (Or.inl h))

theorem charsLe_trans : ∀ {as bs cs : List Char},
    charsLe as bs = true → charsLe bs cs = true → charsLe as cs = true
  | [], _, _ => fun _ _ => rfl
  | _ :: _, [], _ => fun h _ => by simp [charsLe] at h
  | _ :: _, _ :: _, [] => fun _ h => by simp [charsLe] at h
  | a :: as, b :: bs, c :: cs => fun h1 h2 => by
    rcases charsLe_cons_iff.mp h1 with h | ⟨he, hr⟩ <;>
      rcases charsLe_cons_iff.mp h2 with h' | ⟨he', hr'⟩
    · exact charsLe_cons_iff.mpr (Or.inl (lt_trans h h'))
    · exact charsLe_cons_iff.mpr (Or.inl (he' ▸ h))
    · exact charsLe_cons_iff.mpr (Or.inl (he ▸ h'))
    · exact charsLe_cons_iff.mpr (Or.inr ⟨he.trans he', charsLe_trans hr hr'⟩)

theorem charsLe_antisymm : ∀ {as bs : List Char},
    charsLe as bs = true → charsLe bs as = true → as = bs
  | [], [] => fun _ _ => rfl
  | [], _ :: _ => fun _ h => by simp [charsLe] at h
  | _ :: _, [] => fun h _ => by simp [charsLe] at h
  | a :: as, b :: bs => fun h1 h2 => by
    rcases charsLe_cons_iff.mp h1 with h | ⟨he, hr⟩
    · rcases charsLe_cons_iff.mp h2 with h' | ⟨he', _⟩
      · exact absurd h' (lt_asymm h)
      · exact absurd he'.symm (ne_of_lt h)
    · subst he
      rcases charsLe_cons_iff.mp h2 with h' | ⟨_, hr'⟩
      · exact absurd h' (lt_irrefl a)
      · rw [charsLe_antisymm hr hr']

instance : IsTotal (String × String) keyLE :=
  ⟨fun a b => charsLe_total a.1.data b.1.data⟩

instance : IsTrans (String × String) keyLE :=
  ⟨fun _ _ _ h h2 => charsLe_trans h h2⟩

theorem keyLT_asymm {a b : String × String} (h1 : keyLT a b) (h2 : keyLT b a) :
    False :=
  h1.2 (String.ext (charsLe_antisymm h1.1 h2.1))

theorem keyLT_irrefl {a : String × String} (h : keyLT a a) : False :=
  h.2 rfl

/-! ### Helper lemmas about the environment map -/

theorem envInsert_of_inv {g : String → String} {k : String} :
    ∀ {l : List (String × String)}, (∀ p ∈ l, p.2 = g p.1) →
      envInsert k (g k) l =
        if k ∈ l.map Prod.fst then l else l ++ [(k, g k)]
  | [], _ => by simp [envInsert]
  | q :: rest, hinv => by
    by_cases hq : q.1 = k
    · have hq2 : q.2 = g q.1 := hinv q (List.mem_cons_self q rest)
      have hqe : q = (k, g k) := by
        rcases q with ⟨q1, q2⟩
        simp only at hq hq2
        rw [hq] at hq2 ⊢
        rw [hq2]
      simp [envInsert, hq, hqe]
    · have hrest : ∀ p ∈ rest, p.2 = g p.1 := fun p hp =>
        hinv p (List.mem_cons_of_mem q hp)
      have ih := envInsert_of_inv (g := g) (k := k) hrest
      by_cases hm : k ∈ rest.map Prod.fst
      · simp [envInsert, hq, ih, hm, Ne.symm hq]
      · simp [envInsert, hq, ih, hm, Ne.symm hq]

theorem key_mem_pair {g : String → String} :
    ∀ {l : List (String × String)}, (∀ p ∈ l, p.2 = g p.1) →
      ∀ {k : String}, k ∈ l.map Prod.fst → (k, g k) ∈ l
  | [], _, _, hk => by simp at hk
  | q :: rest, hinv, k, hk => by
    rcases List.mem_map.mp hk with ⟨p, hp, he⟩
    rcases List.mem_cons.mp hp with rfl | hp2
    · have hq2 : p.2 = g p.1 := hinv p (List.mem_cons_self p rest)
      have : p = (k, g k) := by
        rcases p with ⟨p1, p2⟩
        simp only at he hq2
        rw [he] at hq2 ⊢
        rw [hq2]
      exact this ▸ List.mem_cons_self _ _
    · have hrest : ∀ p ∈ rest, p.2 = g p.1 := fun p hp =>
        hinv p (List.mem_cons_of_mem q hp)
      exact List.mem_cons_of_mem q
        (key_mem_pair hrest (List.mem_map.mpr ⟨p, hp2, he⟩))

theorem buildEnvAux_spec (g : String → String) :
    ∀ (names : List String) (acc : List (String × String)),
      (∀ p ∈ acc, p.2 = g p.1 ∧ g p.1 ≠ "") →
      acc.Pairwise keyNe →
      (∀ p ∈ names.foldl (fun env e => (addIf e g env).1) acc,
          p.2 = g p.1 ∧ g p.1 ≠ "")
      ∧ (names.foldl (fun env e => (addIf e g env).1) acc).Pairwise keyNe
      ∧ (∀ p, p ∈ names.foldl (fun env e => (addIf e g env).1) acc ↔
          p ∈ acc ∨ (p.1 ∈ names ∧ g p.1 ≠ "" ∧ p.2 = g p.1))
  | [], acc, hinv, hpw => by
    refine ⟨hinv, hpw, fun p => ?_⟩
    simp
  | n :: names, acc, hinv, hpw => by
    rw [List.foldl_cons]
    by_cases hn : g n = ""
    · have hstep : (addIf n g acc).1 = acc := by
        simp [addIf, hn]
      rw [hstep]
      obtain ⟨h1, h2, h3⟩ := buildEnvAux_spec g names acc hinv hpw
      refine ⟨h1, h2, fun p => ?_⟩
      rw [h3 p]
      constructor
      · rintro (h | ⟨h1, h2, h3⟩)
        · exact Or.inl h
        · exact Or.inr ⟨List.mem_cons_of_mem n h1, h2, h3⟩
      · rintro (h | ⟨h1, h2, h3⟩)
        · exact Or.inl h
        · rcases List.mem_cons.mp h1 with rfl | h1
          · exact absurd hn h2
          · exact Or.inr ⟨h1, h2, h3⟩
    · have hstep : (addIf n g acc).1 = envInsert n (g n) acc := by
        simp [addIf, hn]
      have hinv1 : ∀ p ∈ acc, p.2 = g p.1 := fun p hp => (hinv p hp).1
      rw [hstep, envInsert_of_inv hinv1]
      by_cases hm : n ∈ acc.map Prod.fst
      · rw [if_pos hm]
        obtain ⟨h1, h2, h3⟩ := buildEnvAux_spec g names acc hinv hpw
        refine ⟨h1, h2, fun p => ?_⟩
        rw [h3 p]
        constructor
        · rintro (h | ⟨h1, h2, h3⟩)
          · exact Or.inl h
          · exact Or.inr ⟨List.mem_cons_of_mem n h1, h2, h3⟩
        · rintro (h | ⟨hp1, hp2, hp3⟩)
          · exact Or.inl h
          · rcases List.mem_cons.mp hp1 with he | hp1
            · left
              have : p = (n, g n) := by
                rcases p with ⟨p1, p2⟩
                simp only at he hp3 ⊢
                rw [he] at hp3 ⊢
                rw [hp3]
              exact this ▸ key_mem_pair hinv1 hm
            · exact Or.inr ⟨hp1, hp2, hp3⟩
      · rw [if_neg hm]
        have hinv2 : ∀ p ∈ acc ++ [(n, g n)], p.2 = g p.1 ∧ g p.1 ≠ "" := by
          intro p hp
          rcases List.mem_append.mp hp with hp | hp
          · exact hinv p hp
          · rcases List.mem_singleton.mp hp with rfl
            exact ⟨rfl, hn⟩
        have hpw2 : (acc ++ [(n, g n)]).Pairwise keyNe := by
          rw [List.pairwise_append]
          refine ⟨hpw, List.pairwise_singleton _ _, ?_⟩
          intro a ha b hb
          rcases List.mem_singleton.mp hb with rfl
          intro he
          exact hm (List.mem_map.mpr ⟨a, ha, he⟩)
        obtain ⟨h1, h2, h3⟩ := buildEnvAux_spec g names (acc ++ [(n, g n)]) hinv2 hpw2
        refine ⟨h1, h2, fun p => ?_⟩
        rw [h3 p]
        constructor
        · rintro (h | ⟨hp1, hp2, hp3⟩)
          · rcases List.mem_append.mp h with h | h
            · exact Or.inl h
            · rcases List.mem_singleton.mp h with rfl
              exact Or.inr ⟨List.mem_cons_self n names, hn, rfl⟩
          · exact Or.inr ⟨List.mem_cons_of_mem n hp1, hp2, hp3⟩
        · rintro (h | ⟨hp1, hp2, hp3⟩)
          · exact Or.inl (List.mem_append.mpr (Or.inl h))
          · rcases List.mem_cons.mp hp1 with he | hp1
            · left
              refine List.mem_append.mpr (Or.inr (List.mem_singleton.mpr ?_))
              rcases p with ⟨p1, p2⟩
              simp only at he hp3 ⊢
              rw [he] at hp3 ⊢
              rw [hp3]
            · exact Or.inr ⟨hp1, hp2, hp3⟩

theorem buildEnv_mem (g : String → String) (names : List String)
    (p : String × String) :
    p ∈ buildEnv names g ↔ p.1 ∈ names ∧ g p.1 ≠ "" ∧ p.2 = g p.1 := by
  have h := (buildEnvAux_spec g names [] (by simp) List.Pairwise.nil).2.2 p
  rw [buildEnv, h]
  simp

theorem buildEnv_pairwise (g : String → String) (names : List String) :
    (buildEnv names g).Pairwise keyNe :=
  (buildEnvAux_spec g names [] (by simp) List.Pairwise.nil).2.1

/-! ### Helper lemmas about the sorted iteration order -/

theorem sortedEntries_perm (l : List (String × String)) :
    (sortedEntries l).Perm l :=
  List.perm_insertionSort keyLE l

theorem sortedEntries_sorted (l : List (String × String)) :
    List.Sorted keyLE (sortedEntries l) :=
  List.sorted_insertionSort keyLE l

theorem sortedEntries_mem (l : List (String × String)) (p : String × String) :
    p ∈ sortedEntries l ↔ p ∈ l :=
  (sortedEntries_perm l).mem_iff

theorem keyNe_symm : ∀ {a b : String × String}, keyNe a b → keyNe b a :=
  fun h => fun e => h e.symm

theorem sortedEntries_pairwise_keyNe {l : List (String × String)}
    (h : l.Pairwise keyNe) : (sortedEntries l).Pairwise keyNe :=
  (List.Perm.pairwise_iff (fun h => keyNe_symm h) (sortedEntries_perm l)).mpr h

theorem sorted_keyLT {l : List (String × String)}
    (hs : List.Sorted keyLE l) (hn : l.Pairwise keyNe) :
    l.Pairwise keyLT :=
  (List.Pairwise.and hs hn).imp (fun h => ⟨h.1, h.2⟩)

theorem eq_of_sorted_keyLT : ∀ {l₁ l₂ : List (String × String)},
    l₁.Pairwise keyLT → l₂.Pairwise keyLT → (∀ p, p ∈ l₁ ↔ p ∈ l₂) → l₁ = l₂
  | [], [], _, _, _ => rfl
  | [], b :: l₂, _, _, hm =>
    absurd ((hm b).mpr (List.mem_cons_self b l₂)) (List.not_mem_nil b)
  | a :: l₁, [], _, _, hm =>
    absurd ((hm a).mp (List.mem_cons_self a l₁)) (List.not_mem_nil a)
  | a :: l₁, b :: l₂, h₁, h₂, hm => by
    have hab : a = b := by
      rcases List.mem_cons.mp ((hm a).mp (List.mem_cons_self a l₁)) with h | h
      · exact h
      · rcases List.mem_cons.mp ((hm b).mpr (List.mem_cons_self b l₂)) with h' | h'
        · exact h'.symm
        · exact absurd (List.rel_of_pairwise_cons h₁ h')
            (fun hk => keyLT_asymm hk (List.rel_of_pairwise_cons h₂ h))
    subst hab
    have hmt : ∀ p, p ∈ l₁ ↔ p ∈ l₂ := by
      intro p
      constructor
      · intro hp
        rcases List.mem_cons.mp ((hm p).mp (List.mem_cons_of_mem a hp)) with rfl | h
        · exact absurd (List.rel_of_pairwise_cons h₁ hp) keyLT_irrefl
        · exact h
      · intro hp
        rcases List.mem_cons.mp ((hm p).mpr (List.mem_cons_of_mem a hp)) with rfl | h
        · exact absurd (List.rel_of_pairwise_cons h₂ hp) keyLT_irrefl
        · exact h
    rw [eq_of_sorted_keyLT h₁.of_cons h₂.of_cons hmt]

theorem sortedEntries_buildEnv_pairwise_keyLT (g : String → String)
    (names : List String) :
    (sortedEntries (buildEnv names g)).Pairwise keyLT :=
  sorted_keyLT (sortedEntries_sorted _)
    (sortedEntries_pairwise_keyNe (buildEnv_pairwise g names))

theorem sortedEntries_buildEnv_eq_of_mem_iff {g : String → String}
    {l₁ l₂ : List String} (h : ∀ n, n ∈ l₁ ↔ n ∈ l₂) :
    sortedEntries (buildEnv l₁ g) = sortedEntries (buildEnv l₂ g) := by
  refine eq_of_sorted_keyLT (sortedEntries_buildEnv_pairwise_keyLT g l₁)
    (sortedEntries_buildEnv_pairwise_keyLT g l₂) (fun p => ?_)
  rw [sortedEntries_mem, sortedEntries_mem, buildEnv_mem, buildEnv_mem, h p.1]

/-! ### Claim C2 -/

/-- Claim C2, counterexample: when both the archiver and the builder
fail, the result combination of hidalgo.go (lines 434-441) reports the
archiver-side failure, not the builder-side failure the claim names as
the primary reported cause. -/
theorem c2_counterexample :
    combineResults (some "tar exit status 1") (some "build exit status 1")
      = some (ReportedFailure.archiverFailed "tar exit status 1")
    ∧ combineResults (some "tar exit status 1") (some "build exit status 1")
      ≠ some (ReportedFailure.builderFailed "build exit status 1") :=
  ⟨rfl, by decide⟩

/-- Claim C2, amended: if only the builder process fails the reported
failure references the builder; if both the archiver and the builder
fail, the archiver-side failure is the primary (and only) reported
cause, because the archiver error is examined first and the process
exits there. -/
theorem c2_amended :
    (∀ m : String,
      combineResults none (some m) = some (ReportedFailure.builderFailed m))
    ∧ ∀ mt ms : String,
      combineResults (some mt) (some ms)
        = some (ReportedFailure.archiverFailed mt) :=
  ⟨fun _ => rfl, fun _ _ => rfl⟩

/-! ### Claim C3 -/

/-- A host environment with two declared variables whose declaration
order disagrees with the lexicographic order of their names. -/
def c3Getenv : String → String :=
  fun n => if n = "A_VAR" then "1" else if n = "B_VAR" then "2" else ""

set_option maxRecDepth 4000 in
/-- Claim C3, counterexample: with env directives declared in the order
B_VAR, A_VAR and both names present in the host environment, the
rendered manifest lists the A_VAR line before the B_VAR line (template
map iteration is sorted by key), so the manifest differs from the
declaration-order manifest the claim describes. -/
theorem c3_counterexample :
    sortedEntries (buildEnv (Config.mk [] ["B_VAR", "A_VAR"] []).Env c3Getenv)
        = [("A_VAR", "1"), ("B_VAR", "2")]
    ∧ declaredOrderEnvPairs (Config.mk [] ["B_VAR", "A_VAR"] []) c3Getenv
        = [("B_VAR", "2"), ("A_VAR", "1")]
    ∧ renderManifest (Config.mk [] ["B_VAR", "A_VAR"] []) c3Getenv "scratch"
        ≠ renderManifestClaimOrder (Config.mk [] ["B_VAR", "A_VAR"] [])
            c3Getenv "scratch" := by
  refine ⟨by decide, by decide, by decide⟩

/-- Claim C3, amended: the environment-set entries of the rendered
manifest are exactly the declared env names that are present (non-empty)
in the host environment snapshot, each paired with its snapshot value,
but they appear in ascending lexicographic order of the variable name
(the iteration order of the Go template over the environment map), not
in declaration order. -/
theorem c3_amended (c : Config) (g : String → String) :
    List.Sorted keyLE (sortedEntries (buildEnv c.Env g))
    ∧ ∀ p : String × String,
        p ∈ sortedEntries (buildEnv c.Env g) ↔
          p.1 ∈ c.Env ∧ g p.1 ≠ "" ∧ p.2 = g p.1 :=
  ⟨sortedEntries_sorted _, fun p => by rw [sortedEntries_mem, buildEnv_mem]⟩

/-! ### Claim C6 -/

/-- Claim C6: manifest rendering is deterministic; identical Config,
environment snapshot and base-image reference (the artifact path is the
fixed constant server_linux64) yield byte-identical manifest text. -/
theorem c6_render_deterministic (c₁ c₂ : Config) (g₁ g₂ : String → String)
    (f₁ f₂ : String) (hc : c₁ = c₂) (hg : g₁ = g₂) (hf : f₁ = f₂) :
    renderManifest c₁ g₁ f₁ = renderManifest c₂ g₂ f₂ := by
  rw [hc, hg, hf]

/-- Claim C6, witness: the determinism theorem applied at a concrete
configuration, snapshot and base image. -/
theorem c6_render_deterministic_witness :
    renderManifest (Config.mk [] ["PATH"] [8080]) c3Getenv "scratch"
      = renderManifest (Config.mk [] ["PATH"] [8080]) c3Getenv "scratch" :=
  c6_render_deterministic _ _ _ _ _ _ rfl rfl rfl

/-! ### Claim C9 -/

/-- Claim C9: the rendered manifest contains at most one
environment-set entry per name (the keys of the rendered entry list are
pairwise distinct), and rendering a Config with duplicated env
directives yields the same manifest as rendering the Config with env
duplicates removed. -/
theorem c9_env_dedup (fs : List String) (l : List String) (ps : List Int)
    (g : String → String) (b : String) :
    ((sortedEntries (buildEnv l g)).map Prod.fst).Nodup
    ∧ renderManifest (Config.mk fs l ps) g b
        = renderManifest (Config.mk fs l.dedup ps) g b := by
  constructor
  · exact List.pairwise_map.mpr
      (sortedEntries_pairwise_keyNe (buildEnv_pairwise g l))
  · have he : sortedEntries (buildEnv l g) = sortedEntries (buildEnv l.dedup g) :=
      sortedEntries_buildEnv_eq_of_mem_iff (fun n => (List.mem_dedup).symm)
    simp only [renderManifest, envSection]
    rw [he]

/-! ### Claim C10 -/

/-- Claim C10: a declared env name whose host value is the empty string
is treated exactly like an unset variable; an environment-set entry for
a declared name appears in the rendered entry list if and only if its
host value is non-empty, and any entry for that name carries the host
value. -/
theorem c10_empty_env_value (c : Config) (g : String → String) (n : String)
    (hn : n ∈ c.Env) :
    ((n, g n) ∈ sortedEntries (buildEnv c.Env g) ↔ g n ≠ "")
    ∧ ∀ v, (n, v) ∈ sortedEntries (buildEnv c.Env g) → v = g n := by
  constructor
  · rw [sortedEntries_mem, buildEnv_mem]
    simp [hn]
  · intro v hv
    rw [sortedEntries_mem, buildEnv_mem] at hv
    exact hv.2.2

/-- Claim C10, witness: the theorem applied to a configuration that
declares FOO while the host environment leaves every name empty; no
entry for FOO is rendered. -/
theorem c10_empty_env_value_witness :
    ((("FOO", (fun _ => "") "FOO") ∈
        sortedEntries (buildEnv (Config.mk [] ["FOO"] []).Env (fun _ => ""))
      ↔ (fun _ => "") "FOO" ≠ "")
    ∧ ∀ v : String, ("FOO", v) ∈
        sortedEntries (buildEnv (Config.mk [] ["FOO"] []).Env (fun _ => "")) →
          v = (fun _ => "") "FOO") :=
  c10_empty_env_value (Config.mk [] ["FOO"] []) (fun _ => "") "FOO" (by decide)

/-! ### Orchestrator claims -/

/-- A run input on which every external step succeeds: flags parse, the
package resolves, a well-formed configuration file is present, the
workspace, compile, template and both packager processes succeed, the
docker command has its default value and dry-run is off. -/
def okInput : RunInput :=
  { usageOk := true, resolveOk := true,
    cfgFile := some (some [Element.mk "env" "FOO", Element.mk "port" "8080"]),
    workspaceOk := true, chdirOk := true, compileOk := true,
    templateParseOk := true, createFileOk := true, renderExecOk := true,
    dockerCmd := "sdocker", fromOpt := "", dry := false,
    getenv := fun _ => "", archiverOk := true, builderOk := true }

/-! ### Claim C1 -/

/-- A run whose configuration file contains the single directive
port 0; and on which every later external step succeeds. -/
def c1Input : RunInput :=
  { okInput with cfgFile := some (some [Element.mk "port" "0"]) }

/-- Claim C1: the claim (and the spec) say a validation failure such as
a port value outside [1, 65535] aborts the pipeline at the
configuration-validation stage with the configuration-invalid status,
before any later stage runs.  The code violates this: the directive
port 0; passes the grammar check, parseConfig reports the invalid-port
error, but main only logs it (hidalgo.go lines 240-243 lack an os.Exit),
so the run continues through compile, render and packaging and
terminates successfully. -/
theorem c1_config_error_not_fatal :
    checkConfig [Element.mk "port" "0"] = true
    ∧ (parseConfig [Element.mk "port" "0"]).2 = some "Invalid port number: 0"
    ∧ Stage.compile ∈ (mainModel c1Input).1
    ∧ Stage.renderManifestStage ∈ (mainModel c1Input).1
    ∧ Stage.startBuilder ∈ (mainModel c1Input).1
    ∧ (mainModel c1Input).2 = Outcome.success := by decide

/-! ### Claim C4 -/

/-- Claim C4, counterexample: the termination statuses are not distinct
per failure class: a usage (flag-parse) failure and a package-resolution
failure both exit 1, a configuration-invalid (grammar check) failure and
a workspace failure both exit 2, and a compile failure and a packaging
(archiver) failure both exit 3. -/
theorem c4_counterexample :
    (mainModel { okInput with usageOk := false }).2 = Outcome.exited 1
    ∧ (mainModel { okInput with resolveOk := false }).2 = Outcome.exited 1
    ∧ (mainModel { okInput with
        cfgFile := some (some [Element.mk "bogus" "x"]) }).2 = Outcome.exited 2
    ∧ (mainModel { okInput with workspaceOk := false }).2 = Outcome.exited 2
    ∧ (mainModel { okInput with compileOk := false }).2 = Outcome.exited 3
    ∧ (mainModel { okInput with archiverOk := false }).2 = Outcome.exited 3 := by
  decide

/-- Claim C4, amended: every failure class terminates with a small
integer status, but the statuses are not pairwise distinct across
classes: flag-parse errors, package-resolution errors and
configuration-file read errors exit 1; configuration-invalid (grammar
check) failures and workspace failures exit 2; compile failures and
packaging failures (archiver or builder) exit 3; template parse and
Dockerfile creation faults exit 4; template execution faults and an
empty docker command exit 5. -/
theorem c4_amended :
    (∀ i : RunInput, i.usageOk = false → (mainModel i).2 = Outcome.exited 1)
    ∧ (∀ i : RunInput, i.usageOk = true → i.resolveOk = false →
        (mainModel i).2 = Outcome.exited 1)
    ∧ (∀ i : RunInput, i.usageOk = true → i.resolveOk = true →
        i.cfgFile = some none → (mainModel i).2 = Outcome.exited 1)
    ∧ (∀ i : RunInput, i.usageOk = true → i.resolveOk = true →
        i.cfgFile ≠ some none → checkConfig (elemsOf i.cfgFile) = false →
        (mainModel i).2 = Outcome.exited 2)
    ∧ (∀ i : RunInput, i.usageOk = true → i.resolveOk = true →
        i.cfgFile ≠ some none → checkConfig (elemsOf i.cfgFile) = true →
        i.workspaceOk = false → (mainModel i).2 = Outcome.exited 2)
    ∧ (∀ i : RunInput, i.usageOk = true → i.resolveOk = true →
        i.cfgFile ≠ some none → checkConfig (elemsOf i.cfgFile) = true →
        i.workspaceOk = true → i.chdirOk = false →
        (mainModel i).2 = Outcome.exited 2)
    ∧ (∀ i : RunInput, i.usageOk = true → i.resolveOk = true →
        i.cfgFile ≠ some none → checkConfig (elemsOf i.cfgFile) = true →
        i.workspaceOk = true → i.chdirOk = true → i.compileOk = false →
        (mainModel i).2 = Outcome.exited 3)
    ∧ (∀ i : RunInput, i.usageOk = true → i.resolveOk = true →
        i.cfgFile ≠ some none → checkConfig (elemsOf i.cfgFile) = true →
        i.workspaceOk = true → i.chdirOk = true → i.compileOk = true →
        i.templateParseOk = false → (mainModel i).2 = Outcome.exited 4)
    ∧ (∀ i : RunInput, i.usageOk = true → i.resolveOk = true →
        i.cfgFile ≠ some none → checkConfig (elemsOf i.cfgFile) = true →
        i.workspaceOk = true → i.chdirOk = true → i.compileOk = true →
        i.templateParseOk = true → i.createFileOk = false →
        (mainModel i).2 = Outcome.exited 4)
    ∧ (∀ i : RunInput, i.usageOk = true → i.resolveOk = true →
        i.cfgFile ≠ some none → checkConfig (elemsOf i.cfgFile) = true →
        i.workspaceOk = true → i.chdirOk = true → i.compileOk = true →
        i.templateParseOk = true → i.createFileOk = true →
        i.renderExecOk = false → (mainModel i).2 = Outcome.exited 5)
    ∧ (∀ i : RunInput, i.usageOk = true → i.resolveOk = true →
        i.cfgFile ≠ some none → checkConfig (elemsOf i.cfgFile) = true →
        i.workspaceOk = true → i.chdirOk = true → i.compileOk = true →
        i.templateParseOk = true → i.createFileOk = true →
        i.renderExecOk = true → i.dockerCmd = "" →
        (mainModel i).2 = Outcome.exited 5)
    ∧ (∀ i : RunInput, i.usageOk = true → i.resolveOk = true →
        i.cfgFile ≠ some none → checkConfig (elemsOf i.cfgFile) = true →
        i.workspaceOk = true → i.chdirOk = true → i.compileOk = true →
        i.templateParseOk = true → i.createFileOk = true →
        i.renderExecOk = true → i.dockerCmd ≠ "" → i.dry = false →
        i.archiverOk = false → (mainModel i).2 = Outcome.exited 3)
    ∧ (∀ i : RunInput, i.usageOk = true → i.resolveOk = true →
        i.cfgFile ≠ some none → checkConfig (elemsOf i.cfgFile) = true →
        i.workspaceOk = true → i.chdirOk = true → i.compileOk = true →
        i.templateParseOk = true → i.createFileOk = true →
        i.renderExecOk = true → i.dockerCmd ≠ "" → i.dry = false →
        i.archiverOk = true → i.builderOk = false →
        (mainModel i).2 = Outcome.exited 3) := by
  refine ⟨?_, ?_, ?_, ?_, ?_, ?_, ?_, ?_, ?_, ?_, ?_, ?_, ?_⟩
  · intro i h1
    simp [mainModel, h1]
  · intro i h1 h2
    simp [mainModel, h1, h2]
  · intro i h1 h2 h3
    simp [mainModel, h1, h2, h3]
  · intro i h1 h2 h3 h4
    simp [mainModel, h1, h2, h3, h4]
  · intro i h1 h2 h3 h4 h5
    simp [mainModel, h1, h2, h3, h4, h5]
  · intro i h1 h2 h3 h4 h5 h6
    simp [mainModel, h1, h2, h3, h4, h5, h6]
  · intro i h1 h2 h3 h4 h5 h6 h7
    simp [mainModel, h1, h2, h3, h4, h5, h6, h7]
  · intro i h1 h2 h3 h4 h5 h6 h7 h8
    simp [mainModel, h1, h2, h3, h4, h5, h6, h7, h8]
  · intro i h1 h2 h3 h4 h5 h6 h7 h8 h9
    simp [mainModel, h1, h2, h3, h4, h5, h6, h7, h8, h9]
  · intro i h1 h2 h3 h4 h5 h6 h7 h8 h9 h10
    simp [mainModel, h1, h2, h3, h4, h5, h6, h7, h8, h9, h10]
  · intro i h1 h2 h3 h4 h5 h6 h7 h8 h9 h10 h11
    simp [mainModel, h1, h2, h3, h4, h5, h6, h7, h8, h9, h10, h11]
  · intro i h1 h2 h3 h4 h5 h6 h7 h8 h9 h10 h11 h12 h13
    simp [mainModel, h1, h2, h3, h4, h5, h6, h7, h8, h9, h10, h11, h12, h13]
  · intro i h1 h2 h3 h4 h5 h6 h7 h8 h9 h10 h11 h12 h13 h14
    simp [mainModel, h1, h2, h3, h4, h5, h6, h7, h8, h9, h10, h11, h12, h13, h14]

/-- Claim C4, amended, witness: the amended mapping applied at concrete
runs failing at the usage stage and at the builder stage. -/
theorem c4_amended_witness :
    (mainModel { okInput with usageOk := false }).2 = Outcome.exited 1
    ∧ (mainModel { okInput with builderOk := false }).2 = Outcome.exited 3 :=
  ⟨c4_amended.1 { okInput with usageOk := false } rfl,
    c4_amended.2.2.2.2.2.2.2.2.2.2.2.2 { okInput with builderOk := false }
      rfl rfl (by decide) (by decide) rfl rfl rfl rfl rfl rfl (by decide) rfl
      rfl rfl⟩

/-! ### Claim C5 -/

/-- Claim C5: in every run that reaches the packaging stage, the pipe
write end is closed exactly once, only after the wait on the archiver
has returned, and before the wait on the builder; this holds regardless
of whether the archiver or the builder fails (no hypothesis on either
outcome). -/
theorem c5_close_after_wait (i : RunInput)
    (h1 : i.usageOk = true) (h2 : i.resolveOk = true)
    (h3 : i.cfgFile ≠ some none) (h4 : checkConfig (elemsOf i.cfgFile) = true)
    (h5 : i.workspaceOk = true) (h6 : i.chdirOk = true)
    (h7 : i.compileOk = true) (h8 : i.templateParseOk = true)
    (h9 : i.createFileOk = true) (h10 : i.renderExecOk = true)
    (h11 : i.dockerCmd ≠ "") (h12 : i.dry = false) :
    (mainModel i).1.count Stage.closeWrite = 1
    ∧ (mainModel i).1.indexOf Stage.waitArchiver
        < (mainModel i).1.indexOf Stage.closeWrite
    ∧ (mainModel i).1.indexOf Stage.closeWrite
        < (mainModel i).1.indexOf Stage.waitBuilder := by
  have htr : (mainModel i).1 = [Stage.resolve, Stage.grammarParse,
      Stage.readConfigFile, Stage.checkConfigStage, Stage.parseConfigStage,
      Stage.workspace, Stage.compile, Stage.renderManifestStage,
      Stage.startArchiver, Stage.startBuilder, Stage.waitArchiver,
      Stage.closeWrite, Stage.waitBuilder] := by
    cases ha : i.archiverOk <;> cases hb : i.builderOk <;>
      simp [mainModel, h1, h2, h3, h4, h5, h6, h7, h8, h9, h10, h11, h12, ha, hb]
  rw [htr]
  decide

/-- A packaging run whose archiver fails while everything earlier
succeeded. -/
def c5Input : RunInput := { okInput with archiverOk := false }

/-- Claim C5, witness: the protocol ordering applied to a concrete
packaging run in which the archiver fails. -/
theorem c5_close_after_wait_witness :
    (mainModel c5Input).1.count Stage.closeWrite = 1
    ∧ (mainModel c5Input).1.indexOf Stage.waitArchiver
        < (mainModel c5Input).1.indexOf Stage.closeWrite
    ∧ (mainModel c5Input).1.indexOf Stage.closeWrite
        < (mainModel c5Input).1.indexOf Stage.waitBuilder :=
  c5_close_after_wait c5Input rfl rfl (by decide) (by decide) rfl rfl rfl rfl
    rfl rfl (by decide) rfl

/-! ### Claim C8 -/

/-- A dry run that reaches a successful manifest render but was given an
explicitly empty docker command option. -/
def c8Input : RunInput := { okInput with dry := true, dockerCmd := "" }

/-- Claim C8, counterexample: a dry run with an explicitly empty docker
command option reaches a successful manifest render and starts no
archiver or builder process, yet terminates with exit status 5 rather
than the success status the claim asserts for every such run. -/
theorem c8_counterexample :
    Stage.renderManifestStage ∈ (mainModel c8Input).1
    ∧ Stage.startArchiver ∉ (mainModel c8Input).1
    ∧ Stage.startBuilder ∉ (mainModel c8Input).1
    ∧ (mainModel c8Input).2 = Outcome.exited 5 := by decide

/-- Claim C8, amended: in every dry run reaching a successful manifest
render, no archiver and no builder process is started; the run
terminates with the success status whenever the docker command option is
non-empty (as it is by default), and with exit status 5 when the docker
command option is explicitly empty (the check sits between the render
and the dry-run branch), still without starting any process. -/
theorem c8_amended (i : RunInput)
    (h1 : i.usageOk = true) (h2 : i.resolveOk = true)
    (h3 : i.cfgFile ≠ some none) (h4 : checkConfig (elemsOf i.cfgFile) = true)
    (h5 : i.workspaceOk = true) (h6 : i.chdirOk = true)
    (h7 : i.compileOk = true) (h8 : i.templateParseOk = true)
    (h9 : i.createFileOk = true) (h10 : i.renderExecOk = true)
    (hdry : i.dry = true) :
    Stage.startArchiver ∉ (mainModel i).1
    ∧ Stage.startBuilder ∉ (mainModel i).1
    ∧ Stage.renderManifestStage ∈ (mainModel i).1
    ∧ (i.dockerCmd ≠ "" → (mainModel i).2 = Outcome.success)
    ∧ (i.dockerCmd = "" → (mainModel i).2 = Outcome.exited 5) := by
  by_cases hd : i.dockerCmd = ""
  · have h : mainModel i = ([Stage.resolve, Stage.grammarParse,
        Stage.readConfigFile, Stage.checkConfigStage, Stage.parseConfigStage,
        Stage.workspace, Stage.compile, Stage.renderManifestStage],
        Outcome.exited 5) := by
      simp [mainModel, h1, h2, h3, h4, h5, h6, h7, h8, h9, h10, hd]
    rw [h]
    exact ⟨by decide, by decide, by decide,
      fun hne => absurd hd hne, fun _ => rfl⟩
  · have h : mainModel i = ([Stage.resolve, Stage.grammarParse,
        Stage.readConfigFile, Stage.checkConfigStage, Stage.parseConfigStage,
        Stage.workspace, Stage.compile, Stage.renderManifestStage],
        Outcome.success) := by
      simp [mainModel, h1, h2, h3, h4, h5, h6, h7, h8, h9, h10, hd, hdry]
    rw [h]
    exact ⟨by decide, by decide, by decide,
      fun _ => rfl, fun he => absurd he hd⟩

/-- A dry run on which every step succeeds and the docker command has
its default value. -/
def c8OkInput : RunInput := { okInput with dry := true }

/-- Claim C8, amended, witness: the amended theorem applied to a
concrete dry run with the default docker command. -/
theorem c8_amended_witness :
    Stage.startArchiver ∉ (mainModel c8OkInput).1
    ∧ Stage.startBuilder ∉ (mainModel c8OkInput).1
    ∧ Stage.renderManifestStage ∈ (mainModel c8OkInput).1
    ∧ (c8OkInput.dockerCmd ≠ "" → (mainModel c8OkInput).2 = Outcome.success)
    ∧ (c8OkInput.dockerCmd = "" → (mainModel c8OkInput).2 = Outcome.exited 5) :=
  c8_amended c8OkInput rfl rfl (by decide) (by decide) rfl rfl rfl rfl rfl rfl
    rfl

/-! ### Claim C7 -/

/-- Claim C7, counterexample: the value 08 parses as the integer 8 under
the plain decimal reading of the claim, which lies in [1, 65535], yet
the validator rejects it: 08 passes the grammar regex, but
strconv.ParseInt with base argument 0 treats a leading zero as an octal
prefix and 8 is not an octal digit, so parseConfig reports an invalid
port. -/
theorem c7_counterexample :
    claimPortAccepted "08" = true ∧ portDirectiveAccepted "08" = false := by
  decide

/-- Claim C7, amended: the configuration validator accepts a port
directive exactly when its value is a nonempty string of decimal digits
(the grammar regex) that parses under the Go base-0 integer syntax
(where a leading zero selects octal) to a value in [1, 65535]; the
values 0 and 65536 are rejected by the range check of parseConfig, and
non-numeric text such as abc is rejected by the grammar check. -/
theorem c7_amended (s : String) :
    (portDirectiveAccepted s = true ↔
      (matchesDigits s = true
        ∧ ∃ n : Int, goParseInt0 s = some n ∧ 1 ≤ n ∧ n ≤ 65535))
    ∧ portDirectiveAccepted "0" = false
    ∧ portDirectiveAccepted "65536" = false
    ∧ portDirectiveAccepted "abc" = false
    ∧ checkConfig [Element.mk "port" "abc"] = false := by
  refine ⟨?_, by decide, by decide, by decide, by decide⟩
  have hc : checkConfig [Element.mk "port" s] = (matchesDigits s && true) := rfl
  have hp : (parseConfig [Element.mk "port" s]).2.isNone
      = (portLoop (Config.mk [] [] []) [Element.mk "port" s]).2.isNone := by
    rcases h : portLoop (Config.mk [] [] []) [Element.mk "port" s] with ⟨r, e⟩
    cases e <;> simp [parseConfig, ofRule, h]
  unfold portDirectiveAccepted
  rw [hc, Bool.and_true, hp]
  rcases hgo : goParseInt0 s with _ | n
  · have hl : (portLoop (Config.mk [] [] []) [Element.mk "port" s]).2
        = some ("Invalid port number: " ++ s) := by
      simp [portLoop, hgo]
    rw [hl]
    constructor
    · intro h
      simp at h
    · rintro ⟨_, n, hn, _, _⟩
      exact absurd hn (by simp)
  · by_cases hr : n < 1 ∨ n > 65535
    · have hl : (portLoop (Config.mk [] [] []) [Element.mk "port" s]).2
          = some ("Invalid port number: " ++ s) := by
        simp [portLoop, hgo, hr]
      rw [hl]
      constructor
      · intro h
        simp at h
      · rintro ⟨_, m, hm, hm1, hm2⟩
        injection hm with he
        omega
    · have hl : (portLoop (Config.mk [] [] []) [Element.mk "port" s]).2
          = none := by
        simp [portLoop, hgo, hr]
      rw [hl]
      simp only [Option.isNone_none, Bool.and_true]
      constructor
      · intro hd
        exact ⟨hd, n, rfl, by omega, by omega⟩
      · rintro ⟨hd, _, _, _⟩
        exact hd

end Hidalgo
